import Mathlib

/-!
# Verification of the tensor2tensor attention/batching core

This file gives a shallow embedding, in Lean 4, of the parts of the
`tensor2tensor` repository that the specification's claims are about:

* `tensor2tensor/utils/data_reader.py` — length-bucketing boundaries and
  batching schemes (`bucket_boundaries`, `hparams_to_batching_scheme`);
* `tensor2tensor/layers/common_attention.py` — the sinusoidal timing signal
  (`get_timing_signal_1d`), the attention-bias builders, the
  relative-attention and multihead-attention configuration guards,
  dot-product attention and the multihead query scaling, and the grouped
  (mixture-of-experts) gate construction;
* `tensor2tensor/rl/envs/simulated_batch_env.py` — the control-dependency
  ordering of `SimulatedBatchEnv.simulate`, modelled as a finite dependency
  graph over the ops the function creates.

Python machine floats are modelled as real numbers (`ℝ`), with exact real
`sin`, `cos`, `exp`, `log`; `int(math.log(x, 2))` is modelled as the exact
floor of the base-2 logarithm of a positive natural number.  Integer
arithmetic is modelled exactly.  Tensors are modelled as index functions
(or per-row lists), with broadcast dimensions of extent one carried
explicitly where a claim mentions shapes.
-/

namespace T2T

/-! ## data_reader.py: bucket boundaries and batching schemes -/

/-- Floor of the base-2 logarithm, by structural recursion on a fuel
argument so that it reduces in the kernel.  `ilog2Aux fuel x` halves `x`
until it reaches `0` or `1`; `fuel ≥ x` suffices since `x` halves each
step.  This models Python's `int(math.log(x, 2))` for `x ≥ 1`. -/
def ilog2Aux : Nat → Nat → Nat
  | 0, _ => 0
  | fuel+1, x => if x ≤ 1 then 0 else ilog2Aux fuel (x / 2) + 1

/-- Floor base-2 logarithm (model of `int(math.log(x, 2))` for `x ≥ 1`). -/
def ilog2 (x : Nat) : Nat := ilog2Aux x x

/-- The loop increment of `bucket_boundaries`:
`2**max(0, int(math.log(x, 2)) - mantissa_bits)`. -/
def bucketStep (x : Nat) (mantissaBits : Int) : Nat :=
  2 ^ (max 0 ((ilog2 x : Int) - mantissaBits)).toNat

/-- The `while x < max_length` loop of `bucket_boundaries`, with a fuel
argument for structural recursion; each iteration appends `x` and adds
`bucketStep x mantissaBits ≥ 1`, so `fuel = maxLength` iterations always
suffice. -/
def bucketBoundariesAux (maxLength : Nat) (mantissaBits : Int) :
    Nat → Nat → List Nat
  | 0, _ => []
  | fuel+1, x =>
    if x < maxLength then
      x :: bucketBoundariesAux maxLength mantissaBits fuel
        (x + bucketStep x mantissaBits)
    else []

/-- `data_reader.bucket_boundaries(max_length, min_length=8, mantissa_bits=2)`:
starting from `min_length`, repeatedly append the current value and advance
it by `2**max(0, int(log2(x)) - mantissa_bits)`, while it stays below
`max_length`.  (The Python defaults are `min_length = 8`,
`mantissa_bits = 2`; here both are passed explicitly.) -/
def bucket_boundaries (maxLength minLength : Nat) (mantissaBits : Int) :
    List Nat :=
  bucketBoundariesAux maxLength mantissaBits maxLength minLength

/-- Model of the hyperparameter fields `hparams_to_batching_scheme` reads.
`maxLength = 0` models a falsy (`0`/`None`) `hparams.max_length`. -/
structure Hparams where
  batchSize : Nat
  maxLength : Nat
  batchingMantissaBits : Int

/-- Modelled from the spec: the default hyperparameters (`max_length`,
`batching_mantissa_bits`) live in `common_hparams.py`, which is not among
the provided source files.  The spec's end-to-end scenario — batch size 128
must give boundaries `[8,12,16,24,32,48,64,96]` and batch sizes
`[16,10,8,5,4,2,2,1,1]` — pins them down: a falsy `max_length` (so it
falls back to `batch_size`) and `batching_mantissa_bits = 1`. -/
def defaultHparams (batchSize : Nat) : Hparams :=
  { batchSize := batchSize, maxLength := 0, batchingMantissaBits := 1 }

/-- The result dictionary of `hparams_to_batching_scheme`. -/
structure BatchingScheme where
  boundaries : List Nat
  batchSizes : List Nat
  maxLength : Nat
deriving DecidableEq

/-- `data_reader.hparams_to_batching_scheme`:
`max_length = hparams.max_length or hparams.batch_size`; boundaries from
`bucket_boundaries` (with the default `min_length = 8`); one batch size
`max(1, batch_size // length)` per boundary plus one for the final bucket;
shard and length multipliers applied afterwards.  (The Python defaults are
`drop_long_sequences=False`, `shard_multiplier=1`, `length_multiplier=1`;
here all are passed explicitly.) -/
def hparams_to_batching_scheme (hparams : Hparams)
    (dropLongSequences : Bool) (shardMultiplier : Nat)
    (lengthMultiplier : Nat) : BatchingScheme :=
  let maxLength := if hparams.maxLength = 0 then hparams.batchSize
    else hparams.maxLength
  let boundaries := bucket_boundaries maxLength 8 hparams.batchingMantissaBits
  let batchSizes := (boundaries ++ [maxLength]).map
    (fun length => max 1 (hparams.batchSize / length))
  let batchSizes := batchSizes.map (· * shardMultiplier)
  let maxLength := maxLength * lengthMultiplier
  let boundaries := boundaries.map (· * lengthMultiplier)
  { boundaries := boundaries
    batchSizes := batchSizes
    maxLength := if dropLongSequences then maxLength else 10 ^ 9 }

/-! ## common_attention.py: sinusoidal timing signal -/

/-- `log_timescale_increment` of `get_timing_signal_1d`:
`math.log(max_timescale / min_timescale) / (num_timescales - 1)`. -/
noncomputable def log_timescale_increment (minTimescale maxTimescale : ℝ)
    (numTimescales : ℕ) : ℝ :=
  Real.log (maxTimescale / minTimescale) / ((numTimescales : ℝ) - 1)

/-- `inv_timescales[i] = min_timescale * exp(i * -log_timescale_increment)`
from `get_timing_signal_1d`. -/
noncomputable def inv_timescales (minTimescale maxTimescale : ℝ)
    (numTimescales : ℕ) (i : ℕ) : ℝ :=
  minTimescale *
    Real.exp ((i : ℝ) * -log_timescale_increment minTimescale maxTimescale
      numTimescales)

/-- `common_attention.get_timing_signal_1d(length, channels, min_timescale,
max_timescale)`, one row per position `t`: `num_timescales = channels // 2`;
`scaled_time[t][i] = t * inv_timescales[i]`; the row is
`concat([sin(scaled_time), cos(scaled_time)], axis=1)` — the sine block
followed by the cosine block — padded at the end with `channels % 2`
zeros.  The leading reshape dimension of extent 1 is dropped. -/
noncomputable def get_timing_signal_1d (length channels : ℕ)
    (minTimescale maxTimescale : ℝ) : ℕ → List ℝ :=
  fun t =>
    ((List.range (channels / 2)).map fun i =>
      Real.sin ((t : ℝ) *
        inv_timescales minTimescale maxTimescale (channels / 2) i)) ++
    ((List.range (channels / 2)).map fun i =>
      Real.cos ((t : ℝ) *
        inv_timescales minTimescale maxTimescale (channels / 2) i)) ++
    List.replicate (channels % 2) 0

/-- The layout asserted by the spec (for comparison with the code): channel
`2i` holds `sin(t * inv_timescales[i])` and channel `2i+1` holds
`cos(t * inv_timescales[i])` — interleaved sin/cos pairs. -/
def timing_signal_interleaved_claim (length channels : ℕ)
    (minTimescale maxTimescale : ℝ) : Prop :=
  ∀ t < length, ∀ i < channels / 2,
    (get_timing_signal_1d length channels minTimescale maxTimescale t).getD
        (2 * i) 0 =
      Real.sin ((t : ℝ) *
        inv_timescales minTimescale maxTimescale (channels / 2) i) ∧
    (get_timing_signal_1d length channels minTimescale maxTimescale t).getD
        (2 * i + 1) 0 =
      Real.cos ((t : ℝ) *
        inv_timescales minTimescale maxTimescale (channels / 2) i)

/-! ## common_attention.py: attention-bias builders -/

/-- `tf.matrix_band_part(tf.ones([length, length]), num_lower, num_upper)`
entrywise: `1` iff `(num_lower < 0 or i - j <= num_lower) and
(num_upper < 0 or j - i <= num_upper)`, else `0`. -/
noncomputable def bandPart (numLower numUpper : Int) (i j : ℕ) : ℝ :=
  if (numLower < 0 ∨ (i : Int) - j ≤ numLower) ∧
      (numUpper < 0 ∨ (j : Int) - i ≤ numUpper) then 1 else 0

/-- `common_attention.attention_bias_local(length, max_backward,
max_forward)` entrywise: `-1e9 * (1.0 - band)`; the result is reshaped to
`[1, 1, length, length]`, recorded separately as a shape. -/
noncomputable def attention_bias_local (length : ℕ)
    (maxBackward maxForward : Int) : ℕ → ℕ → ℝ :=
  fun i j => -1e9 * (1 - bandPart maxBackward maxForward i j)

/-- `common_attention.attention_bias_lower_triangle(length)` =
`attention_bias_local(length, -1, 0)`. -/
noncomputable def attention_bias_lower_triangle (length : ℕ) : ℕ → ℕ → ℝ :=
  attention_bias_local length (-1) 0

/-- `common_attention.attention_bias_ignore_padding(memory_padding)`:
`memory_padding * -1e9`, expanded with two broadcast axes of extent 1
(modelled as ignored middle indices): result indexed
`[batch, 1, 1, memory_length]`. -/
noncomputable def attention_bias_ignore_padding (memoryPadding : ℕ → ℕ → ℝ) :
    ℕ → ℕ → ℕ → ℕ → ℝ :=
  fun b _ _ t => memoryPadding b t * -1e9

/-- `common_attention.attention_bias_to_padding(attention_bias)`:
`to_float(attention_bias < -1)` with the two extent-1 axes squeezed out. -/
noncomputable def attention_bias_to_padding
    (attentionBias : ℕ → ℕ → ℕ → ℕ → ℝ) : ℕ → ℕ → ℝ :=
  fun b t => if attentionBias b 0 0 t < -1 then 1 else 0

/-- `common_attention.attention_bias_coordinates(batch_coordinate)`
entrywise: `min(1, |coord_i - coord_j|) * -1e9` on the float-cast integer
batch coordinates. -/
noncomputable def attention_bias_coordinates (batchCoordinate : ℕ → Int) :
    ℕ → ℕ → ℝ :=
  fun i j =>
    min 1 |((batchCoordinate i : ℝ)) - (batchCoordinate j : ℝ)| * -1e9

/-- `tf.cumsum(f, exclusive=True)` along a row: `∑_{s < t} f s`. -/
noncomputable def cumsum_exclusive (f : ℕ → ℝ) (t : ℕ) : ℝ :=
  ∑ s ∈ Finset.range t, f s

/-- `tf.cumsum(f)` (inclusive) along a row: `∑_{s ≤ t} f s`. -/
noncomputable def cumsum_inclusive (f : ℕ → ℝ) (t : ℕ) : ℝ :=
  ∑ s ∈ Finset.range (t + 1), f s

/-- The target-relative position of
`attention_bias_prepend_inputs_full_attention`: `in_target` is the
exclusive cumulative sum of the padding row, and `target_pos` its
inclusive cumulative sum. -/
noncomputable def prepend_target_pos (padding : ℕ → ℝ) (t : ℕ) : ℝ :=
  cumsum_inclusive (cumsum_exclusive padding) t

/-- `common_attention.attention_bias_prepend_inputs_full_attention(padding)`
entrywise for one batch row: `to_float(target_pos[j] > target_pos[i]) *
-1e9` at query `i`, key `j`. -/
noncomputable def attention_bias_prepend_inputs_full_attention
    (padding : ℕ → ℝ) : ℕ → ℕ → ℝ :=
  fun i j =>
    (if prepend_target_pos padding i < prepend_target_pos padding j
      then (1 : ℝ) else 0) * -1e9

/-- `common_attention.attention_bias_proximal(length)` entrywise:
`-log(1 + |i - j|)`. -/
noncomputable def attention_bias_proximal (length : ℕ) : ℕ → ℕ → ℝ :=
  fun i j => -Real.log (1 + |(i : ℝ) - (j : ℝ)|)

/-- Numpy/TF broadcasting compatibility of shape `s` against target shape
`t`: `s` is right-aligned with `t` and each aligned extent of `s` is `1` or
equal to the corresponding extent of `t`. -/
def broadcastableTo (s t : List ℕ) : Bool :=
  Nat.ble s.length t.length &&
    (s.reverse.zip t.reverse).all fun p => p.1 == 1 || p.1 == p.2

/-! ## common_attention.py: configuration guards -/

/-- The guard at the top of
`common_attention.dot_product_attention_relative`:
`if not max_relative_position: raise ValueError(...)`.  On an integer
argument, Python's `not x` is `x == 0`. -/
def dot_product_attention_relative_guard (maxRelativePosition : Int) :
    Except String Unit :=
  if maxRelativePosition = 0 then
    Except.error "Max relative position should be > 0 when using relative self attention."
  else Except.ok ()

/-- The guards at the top of `common_attention.multihead_attention` (and
`grouped_attention_multihead`, `multihead_attention_2d`): raise
`ValueError` when `total_key_depth % num_heads != 0` or
`total_value_depth % num_heads != 0`, before anything else is built. -/
def multihead_attention_depth_check
    (totalKeyDepth totalValueDepth numHeads : ℕ) : Except String Unit :=
  if totalKeyDepth % numHeads ≠ 0 then
    Except.error "Key depth must be divisible by the number of attention heads."
  else if totalValueDepth % numHeads ≠ 0 then
    Except.error "Value depth must be divisible by the number of attention heads."
  else Except.ok ()

/-- `Except.isOk`, defined locally. -/
def exceptIsOk {ε α : Type} : Except ε α → Bool
  | Except.ok _ => true
  | Except.error _ => false

/-! ## common_attention.py: dot-product attention and multihead scaling -/

/-- Inner product of two depth-`d` vectors (one row of `tf.matmul` with
`transpose_b=True`). -/
noncomputable def dotProd {d : ℕ} (x y : Fin d → ℝ) : ℝ := ∑ l, x l * y l

/-- `tf.nn.softmax` over the last axis. -/
noncomputable def softmax {m : ℕ} (x : Fin m → ℝ) : Fin m → ℝ :=
  fun j => Real.exp (x j) / ∑ l, Real.exp (x l)

/-- `common_attention.dot_product_attention(q, k, v, bias)` for one batch
and head, with `dropout_rate = 0` (the default; `tf.nn.dropout` with keep
probability 1 is the identity): `logits = q·kᵀ`, add bias, softmax over the
key axis, multiply by `v`.  No `1/sqrt(depth_k)` factor appears. -/
noncomputable def dot_product_attention {Lq Lk dk dv : ℕ}
    (q : Fin Lq → Fin dk → ℝ) (k : Fin Lk → Fin dk → ℝ)
    (v : Fin Lk → Fin dv → ℝ) (bias : Fin Lq → Fin Lk → ℝ) :
    Fin Lq → Fin dv → ℝ :=
  fun i d => ∑ j,
    softmax (fun j2 => dotProd (q i) (k j2) + bias i j2) j * v j d

/-- The query scaling applied by `multihead_attention`:
`key_depth_per_head ** -0.5` with
`key_depth_per_head = total_key_depth // num_heads`. -/
noncomputable def multihead_query_scale (totalKeyDepth numHeads : ℕ) : ℝ :=
  ((totalKeyDepth / numHeads : ℕ) : ℝ) ^ (-(1 : ℝ) / 2)

/-- The post-projection core of `common_attention.multihead_attention`:
after `split_heads`, the query is multiplied by
`key_depth_per_head ** -0.5` and only then handed to the attention kernel
(a built-in one or a user-supplied callable).  `k` and `v` are not
scaled. -/
noncomputable def multihead_attention_core {Lq Lk dk dv : ℕ}
    (totalKeyDepth numHeads : ℕ)
    (attentionKernel : (Fin Lq → Fin dk → ℝ) → (Fin Lk → Fin dk → ℝ) →
      (Fin Lk → Fin dv → ℝ) → Fin Lq → Fin dv → ℝ)
    (q : Fin Lq → Fin dk → ℝ) (k : Fin Lk → Fin dk → ℝ)
    (v : Fin Lk → Fin dv → ℝ) : Fin Lq → Fin dv → ℝ :=
  attentionKernel
    (fun i l => q i l * multihead_query_scale totalKeyDepth numHeads) k v

/-- `multihead_attention` as a fallible build: the depth-divisibility
guards run first; the attention output is built only when they pass. -/
noncomputable def multihead_attention_build {Lq Lk dk dv : ℕ}
    (totalKeyDepth totalValueDepth numHeads : ℕ)
    (attentionKernel : (Fin Lq → Fin dk → ℝ) → (Fin Lk → Fin dk → ℝ) →
      (Fin Lk → Fin dv → ℝ) → Fin Lq → Fin dv → ℝ)
    (q : Fin Lq → Fin dk → ℝ) (k : Fin Lk → Fin dk → ℝ)
    (v : Fin Lk → Fin dv → ℝ) :
    Except String (Fin Lq → Fin dv → ℝ) := do
  let _ ← multihead_attention_depth_check totalKeyDepth totalValueDepth
    numHeads
  pure (multihead_attention_core totalKeyDepth numHeads attentionKernel
    q k v)

/-! ## common_attention.py: grouped attention gates -/

/-- `tf.argmax` over the last axis: the first index attaining the maximum
(scanning left to right, replacing only on strictly greater values). -/
noncomputable def tf_argmax {G : ℕ} (f : Fin G → ℝ) (hG : 0 < G) : Fin G :=
  (List.finRange G).foldl (fun best g => if f best < f g then g else best)
    ⟨0, hG⟩

/-- The query gates of `grouped_attention_multihead` for one batch-head:
`q_gates = tf.one_hot(tf.argmax(q_pred, axis=2), num_groups)`. -/
noncomputable def q_gates {Lq G : ℕ} (qPred : Fin Lq → Fin G → ℝ)
    (hG : 0 < G) : Fin Lq → Fin G → ℝ :=
  fun l g => if g = tf_argmax (qPred l) hG then 1 else 0

/-- The memory gates of `grouped_attention_multihead` for one batch-head:
`m_gates = to_float(m_pred > log(threshold))`, then
`tf.maximum(m_gates, one_hot(0, length_kv))` broadcast over groups — the
first memory position is forced into every group. -/
noncomputable def m_gates {Lkv G : ℕ} (mPred : Fin Lkv → Fin G → ℝ)
    (threshold : ℝ) : Fin Lkv → Fin G → ℝ :=
  fun p g =>
    max (if Real.log threshold < mPred p g then (1 : ℝ) else 0)
      (if (p : ℕ) = 0 then 1 else 0)

/-! ## simulated_batch_env.py: the op graph built by simulate -/

/-- The graph-level operations created by `SimulatedBatchEnv.simulate`
(and `HistoryBuffer.move_by_one_element`, which it calls):
`historyRead` — `history_buffer.get_all_elements()` feeding the model;
`modelOutput` — `self._model.infer(...)`;
`observCompute` — the cast/slice producing `observ` from the model output;
`bufferRead` — the second `get_all_elements()` inside
`move_by_one_element`; `bufferMoved` — the shifted concat `moved`;
`observAssign` — `self._observ.assign(observ)`;
`bufferAssign` — `self._history_buff.assign(moved)`;
`simulateReturn` — the returned `tf.identity(reward), tf.identity(done)`. -/
inductive SimOp where
  | historyRead
  | modelOutput
  | observCompute
  | bufferRead
  | bufferMoved
  | observAssign
  | bufferAssign
  | simulateReturn
deriving DecidableEq, Repr

/-- The dependency edges of the op graph of `simulate`: `simDeps b` lists
the ops that must execute before `b`.  Data edges: the model consumes the
history read; `observ` is computed from the model output; the assigns
consume `observ` and `moved`; `moved` consumes the buffer read and
`observ`; the return consumes the reward (from the model output).  Control
edges (from the `tf.control_dependencies` blocks in `simulate` and
`move_by_one_element`): every op created inside
`with tf.control_dependencies([observ])` — both assigns, the buffer read
and `moved` — is ordered after `observCompute`; the returned identities are
ordered after both assigns. -/
def simDeps : SimOp → List SimOp
  | SimOp.historyRead => []
  | SimOp.modelOutput => [SimOp.historyRead]
  | SimOp.observCompute => [SimOp.modelOutput]
  | SimOp.bufferRead => [SimOp.observCompute]
  | SimOp.bufferMoved => [SimOp.bufferRead, SimOp.observCompute]
  | SimOp.observAssign => [SimOp.observCompute]
  | SimOp.bufferAssign => [SimOp.bufferMoved, SimOp.observCompute]
  | SimOp.simulateReturn =>
    [SimOp.observAssign, SimOp.bufferAssign, SimOp.modelOutput]

/-- All ops created by one `simulate` call. -/
def simOps : List SimOp :=
  [SimOp.historyRead, SimOp.modelOutput, SimOp.observCompute,
   SimOp.bufferRead, SimOp.bufferMoved, SimOp.observAssign,
   SimOp.bufferAssign, SimOp.simulateReturn]

/-- A valid execution schedule of the graph: a list containing every op,
in which every op appears after all of its dependencies. -/
def validSchedule (s : List SimOp) : Prop :=
  (∀ op ∈ simOps, op ∈ s) ∧
  ∀ b ∈ simOps, ∀ a ∈ simDeps b, s.indexOf a < s.indexOf b

instance validScheduleDecidable (s : List SimOp) :
    Decidable (validSchedule s) := by
  unfold validSchedule
  exact inferInstance

/-! ## Theorems -/

/-- `bucketStep` is always positive: the increment is a power of two. -/
theorem bucketStep_pos (x : Nat) (mb : Int) : 0 < bucketStep x mb :=
  Nat.pos_pow_of_pos _ (by decide)

/-- Every element produced by the boundary loop lies in `[x, maxLength)`,
and the produced list is a strictly increasing chain. -/
theorem bucketBoundariesAux_mem_and_chain (maxLength : Nat) (mb : Int) :
    ∀ fuel x, (∀ b ∈ bucketBoundariesAux maxLength mb fuel x,
        x ≤ b ∧ b < maxLength) ∧
      (bucketBoundariesAux maxLength mb fuel x).Chain' (· < ·) := by
  intro fuel
  induction fuel with
  | zero => intro x; simp [bucketBoundariesAux]
  | succ fuel ih =>
    intro x
    by_cases hx : x < maxLength
    · have hrec := ih (x + bucketStep x mb)
      constructor
      · intro b hb
        simp only [bucketBoundariesAux, if_pos hx, List.mem_cons] at hb
        rcases hb with rfl | hb
        · exact ⟨le_refl _, hx⟩
        · have := hrec.1 b hb
          exact ⟨le_trans (Nat.le_add_right _ _) this.1, this.2⟩
      · simp only [bucketBoundariesAux, if_pos hx]
        refine List.chain'_cons'.2 ⟨?_, hrec.2⟩
        intro y hy
        have hmem := hrec.1 y (List.mem_of_mem_head? hy)
        calc x < x + bucketStep x mb :=
              Nat.lt_add_of_pos_right (bucketStep_pos x mb)
          _ ≤ y := hmem.1
    · constructor
      · intro b hb
        simp [bucketBoundariesAux, if_neg hx] at hb
      · simp [bucketBoundariesAux, if_neg hx]

/-- With enough fuel (`maxLength - x ≤ fuel`) and a starting point below
`maxLength`, the loop produces a nonempty list whose last element `b`
satisfies `maxLength ≤ b + bucketStep b mb`: the loop stops exactly when
the next candidate would reach `maxLength`. -/
theorem bucketBoundariesAux_last (maxLength : Nat) (mb : Int) :
    ∀ fuel x, maxLength - x ≤ fuel → x < maxLength →
      ∃ b, (bucketBoundariesAux maxLength mb fuel x).getLast? = some b ∧
        maxLength ≤ b + bucketStep b mb := by
  intro fuel
  induction fuel with
  | zero =>
    intro x hfuel hx
    omega
  | succ fuel ih =>
    intro x hfuel hx
    simp only [bucketBoundariesAux, if_pos hx]
    by_cases hnext : x + bucketStep x mb < maxLength
    · have hfuel' : maxLength - (x + bucketStep x mb) ≤ fuel := by
        have := bucketStep_pos x mb
        omega
      obtain ⟨b, hb, hble⟩ := ih (x + bucketStep x mb) hfuel' hnext
      refine ⟨b, ?_, hble⟩
      rw [List.getLast?_cons, hb]
      simp
    · have hempty : bucketBoundariesAux maxLength mb fuel
          (x + bucketStep x mb) = [] := by
        cases fuel with
        | zero => rfl
        | succ fuel => simp [bucketBoundariesAux, if_neg hnext]
      refine ⟨x, ?_, by omega⟩
      rw [List.getLast?_cons, hempty]
      rfl

/-- C3 counterexample: at `max_length = 16`, `min_length = 8`,
`mantissa_bits = 2`, the boundary list is `[8, 10, 12, 14]`; its last
element `14` is strictly below `max_length = 16`, so the claim's "last
element is at or above max_length" fails. -/
theorem bucket_boundaries_last_below_max_cex :
    bucket_boundaries 16 8 2 = [8, 10, 12, 14] ∧
    (bucket_boundaries 16 8 2).getLast? = some 14 ∧ 14 < 16 := by
  refine ⟨by decide, by decide, by decide⟩

/-- C3 (amended): for `0 < min_length < max_length`, the boundary list is
strictly increasing, every element (in particular the last) is strictly
below `max_length`, the list is nonempty and stops exactly when the next
candidate boundary would reach `max_length`; and for every hparams and
multipliers, `len(batch_sizes) = len(boundaries) + 1`. -/
theorem bucket_boundaries_invariants (maxLength minLength : Nat) (mb : Int)
    (hmin : 0 < minLength) (hlt : minLength < maxLength) :
    (bucket_boundaries maxLength minLength mb).Chain' (· < ·) ∧
    (∀ b ∈ bucket_boundaries maxLength minLength mb, b < maxLength) ∧
    (∃ b, (bucket_boundaries maxLength minLength mb).getLast? = some b ∧
      maxLength ≤ b + bucketStep b mb) ∧
    ∀ (hp : Hparams) (dls : Bool) (sm lm : Nat),
      (hparams_to_batching_scheme hp dls sm lm).batchSizes.length =
        (hparams_to_batching_scheme hp dls sm lm).boundaries.length + 1 := by
  have hmc := bucketBoundariesAux_mem_and_chain maxLength mb maxLength
    minLength
  refine ⟨hmc.2, fun b hb => (hmc.1 b hb).2, ?_, ?_⟩
  · exact bucketBoundariesAux_last maxLength mb maxLength minLength
      (by omega) hlt
  · intro hp dls sm lm
    simp [hparams_to_batching_scheme]

/-- C3 witness: the amended invariants at `max_length = 16`,
`min_length = 8`, `mantissa_bits = 2`. -/
theorem bucket_boundaries_invariants_witness :
    0 < 8 ∧ 8 < 16 ∧
    ((bucket_boundaries 16 8 2).Chain' (· < ·) ∧
    (∀ b ∈ bucket_boundaries 16 8 2, b < 16) ∧
    (∃ b, (bucket_boundaries 16 8 2).getLast? = some b ∧
      16 ≤ b + bucketStep b 2) ∧
    ∀ (hp : Hparams) (dls : Bool) (sm lm : Nat),
      (hparams_to_batching_scheme hp dls sm lm).batchSizes.length =
        (hparams_to_batching_scheme hp dls sm lm).boundaries.length + 1) :=
  ⟨by decide, by decide,
    bucket_boundaries_invariants 16 8 2 (by decide) (by decide)⟩

/-- C4: with `batch_size = 128` and the default `max_length` and
`batching_mantissa_bits`, `hparams_to_batching_scheme` produces exactly the
documented boundaries `[8,12,16,24,32,48,64,96]` and batch sizes
`[16,10,8,5,4,2,2,1,1]`, and each batch size is
`max(1, batch_size // length)` over the bucket lengths. -/
theorem hparams_to_batching_scheme_128 :
    (hparams_to_batching_scheme (defaultHparams 128) false 1 1).boundaries =
      [8, 12, 16, 24, 32, 48, 64, 96] ∧
    (hparams_to_batching_scheme (defaultHparams 128) false 1 1).batchSizes =
      [16, 10, 8, 5, 4, 2, 2, 1, 1] ∧
    (hparams_to_batching_scheme (defaultHparams 128) false 1 1).batchSizes =
      ((hparams_to_batching_scheme (defaultHparams 128) false 1 1).boundaries
        ++ [128]).map (fun length => max 1 (128 / length)) := by
  refine ⟨by decide, by decide, by decide⟩

/-- C1 counterexample: the timing signal is not interleaved.  At
`length = 1`, `channels = 4` (so two timescales), the row at position 0 is
`[sin 0, sin 0, cos 0, cos 0] = [0, 0, 1, 1]`: channel 1 holds `0`, but
the claimed interleaved layout demands `cos(0 * inv_timescales[0]) = 1`
there. -/
theorem timing_signal_not_interleaved :
    ¬ timing_signal_interleaved_claim 1 4 1 10000 := by
  intro h
  have h01 := (h 0 (by norm_num) 0 (by norm_num)).2
  simp [get_timing_signal_1d, List.range_succ] at h01

/-- C1 (amended): the produced row at position `t` has `channels` entries;
channel `i` (for `i < channels // 2`) holds `sin(t * inv_timescales[i])`,
channel `channels // 2 + i` holds `cos(t * inv_timescales[i])` — all sine
channels first, then all cosine channels, not interleaved pairs — with the
geometric schedule `inv_timescales[i] = min_timescale *
exp(i * -log(max_timescale / min_timescale) / (channels // 2 - 1))`; when
`channels` is odd the final channel is zero-padding. -/
theorem get_timing_signal_1d_block_layout (length channels : ℕ)
    (minT maxT : ℝ) (t i : ℕ) (hi : i < channels / 2) :
    (get_timing_signal_1d length channels minT maxT t).length = channels ∧
    (get_timing_signal_1d length channels minT maxT t).getD i 0 =
      Real.sin ((t : ℝ) * inv_timescales minT maxT (channels / 2) i) ∧
    (get_timing_signal_1d length channels minT maxT t).getD
        (channels / 2 + i) 0 =
      Real.cos ((t : ℝ) * inv_timescales minT maxT (channels / 2) i) ∧
    (channels % 2 = 1 →
      (get_timing_signal_1d length channels minT maxT t).getD
        (channels - 1) 0 = 0) := by
  unfold get_timing_signal_1d
  refine ⟨?_, ?_, ?_, ?_⟩
  · simp
    omega
  · rw [List.getD_append _ _ _ _ (by simp; omega)]
    rw [List.getD_append _ _ _ _ (by simpa using hi)]
    rw [List.getD_eq_getElem _ _ (by simpa using hi)]
    simp
  · rw [List.getD_append _ _ _ _ (by simp; omega)]
    rw [List.getD_append_right _ _ _ _ (by simp)]
    simp only [List.length_map, List.length_range, Nat.add_sub_cancel_left]
    rw [List.getD_eq_getElem _ _ (by simpa using hi)]
    simp
  · intro hodd
    rw [List.getD_append_right _ _ _ _ (by simp; omega)]
    simp only [List.length_append, List.length_map, List.length_range]
    have h0 : channels - 1 - (channels / 2 + channels / 2) = 0 := by omega
    rw [h0, List.getD_eq_getElem _ _ (by simp; omega)]
    simp

/-- C1 witness: the block layout at `length = 1`, `channels = 5`,
`min_timescale = 1`, `max_timescale = 2`, position `t = 0`, timescale
index `i = 1`. -/
theorem get_timing_signal_1d_block_layout_witness :
    1 < 5 / 2 ∧
    ((get_timing_signal_1d 1 5 (1 : ℝ) 2 0).length = 5 ∧
    (get_timing_signal_1d 1 5 (1 : ℝ) 2 0).getD 1 0 =
      Real.sin ((0 : ℕ) * inv_timescales 1 2 (5 / 2) 1) ∧
    (get_timing_signal_1d 1 5 (1 : ℝ) 2 0).getD (5 / 2 + 1) 0 =
      Real.cos ((0 : ℕ) * inv_timescales 1 2 (5 / 2) 1) ∧
    (5 % 2 = 1 →
      (get_timing_signal_1d 1 5 (1 : ℝ) 2 0).getD (5 - 1) 0 = 0)) :=
  ⟨by norm_num, get_timing_signal_1d_block_layout 1 5 1 2 0 1 (by norm_num)⟩

/-- C2 counterexample: `max_relative_position = -1` is `<= 0`, yet the
guard of `dot_product_attention_relative` does not raise: Python's
`if not max_relative_position` only catches `0`. -/
theorem relative_guard_passes_negative :
    ((-1 : Int) ≤ 0) ∧
    dot_product_attention_relative_guard (-1) = Except.ok () :=
  ⟨by decide, rfl⟩

/-- C2 (amended): the guard of `dot_product_attention_relative` raises at
graph-construction time exactly when `max_relative_position` is zero
(Python-falsy); every nonzero value — positive or negative — passes it. -/
theorem relative_guard_raises_iff_zero (m : Int) :
    dot_product_attention_relative_guard m = Except.ok () ↔ m ≠ 0 := by
  unfold dot_product_attention_relative_guard
  by_cases h : m = 0
  · simp [h]
  · simp [h]

/-- C5 counterexample: the proximal bias takes an intermediate value:
at positions `(0, 1)` it equals `-log 2`, which is neither `0` nor
`-1e9`. -/
theorem attention_bias_proximal_intermediate :
    attention_bias_proximal 2 0 1 = -Real.log 2 ∧
    -Real.log 2 ≠ 0 ∧ -Real.log 2 ≠ -1e9 := by
  refine ⟨?_, ?_, ?_⟩
  · unfold attention_bias_proximal
    norm_num
  · have h2 : (0 : ℝ) < Real.log 2 := Real.log_pos (by norm_num)
    intro hc
    rw [neg_eq_zero] at hc
    exact absurd hc (ne_of_gt h2)
  · have hle : Real.log 2 ≤ 1 := by
      have := Real.log_le_sub_one_of_pos (by norm_num : (0 : ℝ) < 2)
      linarith
    intro hc
    rw [neg_inj] at hc
    norm_num [hc] at hle

/-- C5 (amended): the masking bias builders — causal lower-triangular,
local-window, padding-ignore (on a 0/1 padding mask), batch-isolation, and
prepend-full-attention — produce only the values `0` (allowed) and `-1e9`
(forbidden), and their outputs are broadcastable to
`[batch or 1, heads or 1, length_q, length_kv]`; the proximal builder is
the exception, producing the smooth decay `-log(1 + |i - j|)` with
intermediate values. -/
theorem attention_bias_builders_masking (length B H Lq M : ℕ)
    (mb mf : Int) (m : ℕ → ℕ → ℝ) (coord : ℕ → Int) (pad : ℕ → ℝ)
    (i j b x y t : ℕ) (hm : ∀ b t, m b t = 0 ∨ m b t = 1) :
    (attention_bias_lower_triangle length i j = 0 ∨
      attention_bias_lower_triangle length i j = -1e9) ∧
    (attention_bias_local length mb mf i j = 0 ∨
      attention_bias_local length mb mf i j = -1e9) ∧
    (attention_bias_ignore_padding m b x y t = 0 ∨
      attention_bias_ignore_padding m b x y t = -1e9) ∧
    (attention_bias_coordinates coord i j = 0 ∨
      attention_bias_coordinates coord i j = -1e9) ∧
    (attention_bias_prepend_inputs_full_attention pad i j = 0 ∨
      attention_bias_prepend_inputs_full_attention pad i j = -1e9) ∧
    broadcastableTo [1, 1, length, length] [B, H, length, length] = true ∧
    broadcastableTo [B, 1, 1, M] [B, H, Lq, M] = true ∧
    broadcastableTo [length, length] [B, H, length, length] = true ∧
    broadcastableTo [B, 1, length, length] [B, H, length, length] = true := by
  have hlocal : ∀ mb2 mf2 : Int, attention_bias_local length mb2 mf2 i j = 0 ∨
      attention_bias_local length mb2 mf2 i j = -1e9 := by
    intro mb2 mf2
    unfold attention_bias_local bandPart
    by_cases h : (mb2 < 0 ∨ (i : Int) - j ≤ mb2) ∧
        (mf2 < 0 ∨ (j : Int) - i ≤ mf2)
    · left; rw [if_pos h]; ring
    · right; rw [if_neg h]; ring
  refine ⟨hlocal (-1) 0, hlocal mb mf, ?_, ?_, ?_, ?_, ?_, ?_, ?_⟩
  · unfold attention_bias_ignore_padding
    rcases hm b t with h | h <;> rw [h]
    · left; ring
    · right; ring
  · unfold attention_bias_coordinates
    by_cases h : coord i = coord j
    · left; rw [h]; simp
    · right
      have h1 : (1 : ℝ) ≤ |((coord i : ℝ)) - (coord j : ℝ)| := by
        have hint : (1 : Int) ≤ |coord i - coord j| :=
          Int.one_le_abs (sub_ne_zero_of_ne h)
        calc (1 : ℝ) = ((1 : Int) : ℝ) := by norm_num
          _ ≤ ((|coord i - coord j| : Int) : ℝ) := by exact_mod_cast hint
          _ = |((coord i : ℝ)) - (coord j : ℝ)| := by push_cast; simp
      rw [min_eq_left h1]
      ring
  · unfold attention_bias_prepend_inputs_full_attention
    by_cases h : prepend_target_pos pad i < prepend_target_pos pad j
    · right; rw [if_pos h]; ring
    · left; rw [if_neg h]; ring
  · simp [broadcastableTo]
  · simp [broadcastableTo]
  · simp [broadcastableTo]
  · simp [broadcastableTo]

/-- C5 witness: the masking invariant at `length = 2`, batch 1, heads 1,
query length 2, memory length 2, window `(-1, 0)`, the mask
`m = fun _ t => if t = 0 then 1 else 0`, coordinates `fun i => i`, padding
row `fun _ => 0`, at entry `(0, 1)`. -/
theorem attention_bias_builders_masking_witness :
    (∀ b t, (fun (_ t : ℕ) => if t = 0 then (1 : ℝ) else 0) b t = 0 ∨
      (fun (_ t : ℕ) => if t = 0 then (1 : ℝ) else 0) b t = 1) ∧
    ((attention_bias_lower_triangle 2 0 1 = 0 ∨
      attention_bias_lower_triangle 2 0 1 = -1e9) ∧
    (attention_bias_local 2 (-1) 0 0 1 = 0 ∨
      attention_bias_local 2 (-1) 0 0 1 = -1e9) ∧
    (attention_bias_ignore_padding
        (fun (_ t : ℕ) => if t = 0 then (1 : ℝ) else 0) 0 0 0 1 = 0 ∨
      attention_bias_ignore_padding
        (fun (_ t : ℕ) => if t = 0 then (1 : ℝ) else 0) 0 0 0 1 = -1e9) ∧
    (attention_bias_coordinates (fun i => (i : Int)) 0 1 = 0 ∨
      attention_bias_coordinates (fun i => (i : Int)) 0 1 = -1e9) ∧
    (attention_bias_prepend_inputs_full_attention (fun _ => 0) 0 1 = 0 ∨
      attention_bias_prepend_inputs_full_attention (fun _ => 0) 0 1 = -1e9) ∧
    broadcastableTo [1, 1, 2, 2] [1, 1, 2, 2] = true ∧
    broadcastableTo [1, 1, 1, 2] [1, 1, 2, 2] = true ∧
    broadcastableTo [2, 2] [1, 1, 2, 2] = true ∧
    broadcastableTo [1, 1, 2, 2] [1, 1, 2, 2] = true) :=
  ⟨fun b t => by by_cases h : t = 0 <;> simp [h],
    attention_bias_builders_masking 2 1 1 2 2 (-1) 0
      (fun _ t => if t = 0 then (1 : ℝ) else 0) (fun i => (i : Int))
      (fun _ => 0) 0 1 0 0 0 1
      (fun b t => by by_cases h : t = 0 <;> simp [h])⟩

/-- C6: `attention_bias_to_padding` is a left-inverse of
`attention_bias_ignore_padding`: on any padding mask with entries in
`{0, 1}`, thresholding the produced bias at `-1` recovers the mask
exactly. -/
theorem attention_bias_to_padding_left_inverse (m : ℕ → ℕ → ℝ)
    (hm : ∀ b t, m b t = 0 ∨ m b t = 1) (b t : ℕ) :
    attention_bias_to_padding (attention_bias_ignore_padding m) b t =
      m b t := by
  unfold attention_bias_to_padding attention_bias_ignore_padding
  rcases hm b t with h | h <;> rw [h] <;> norm_num

/-- C6 witness: the round trip on the concrete mask
`m = fun _ t => if t = 0 then 1 else 0` at `(b, t) = (0, 0)` and
`(0, 1)`. -/
theorem attention_bias_to_padding_left_inverse_witness :
    (∀ b t, (fun (_ t : ℕ) => if t = 0 then (1 : ℝ) else 0) b t = 0 ∨
      (fun (_ t : ℕ) => if t = 0 then (1 : ℝ) else 0) b t = 1) ∧
    attention_bias_to_padding (attention_bias_ignore_padding
        (fun (_ t : ℕ) => if t = 0 then (1 : ℝ) else 0)) 0 0 =
      (fun (_ t : ℕ) => if t = 0 then (1 : ℝ) else 0) 0 0 ∧
    attention_bias_to_padding (attention_bias_ignore_padding
        (fun (_ t : ℕ) => if t = 0 then (1 : ℝ) else 0)) 0 1 =
      (fun (_ t : ℕ) => if t = 0 then (1 : ℝ) else 0) 0 1 :=
  ⟨fun b t => by by_cases h : t = 0 <;> simp [h],
    attention_bias_to_padding_left_inverse _
      (fun b t => by by_cases h : t = 0 <;> simp [h]) 0 0,
    attention_bias_to_padding_left_inverse _
      (fun b t => by by_cases h : t = 0 <;> simp [h]) 0 1⟩

/-- C7: `multihead_attention` fails with the divisibility `ValueError` —
producing no attention output — exactly when `total_key_depth` or
`total_value_depth` is not divisible by `num_heads`; when both are
divisible the build succeeds and no such error is raised. -/
theorem multihead_attention_divisibility_guard {Lq Lk dk dv : ℕ}
    (tkd tvd nh : ℕ) (hnh : 0 < nh)
    (kernel : (Fin Lq → Fin dk → ℝ) → (Fin Lk → Fin dk → ℝ) →
      (Fin Lk → Fin dv → ℝ) → Fin Lq → Fin dv → ℝ)
    (q : Fin Lq → Fin dk → ℝ) (k : Fin Lk → Fin dk → ℝ)
    (v : Fin Lk → Fin dv → ℝ) :
    exceptIsOk (multihead_attention_build tkd tvd nh kernel q k v) = true ↔
      (nh ∣ tkd ∧ nh ∣ tvd) := by
  unfold multihead_attention_build multihead_attention_depth_check
  by_cases h1 : tkd % nh = 0
  · by_cases h2 : tvd % nh = 0
    · simp [h1, h2, exceptIsOk, Except.bind, Nat.dvd_of_mod_eq_zero,
        Nat.dvd_iff_mod_eq_zero]
    · simp only [h1, h2, ite_false, ite_true, ne_eq, not_true_eq_false,
        not_false_eq_true]
      constructor
      · intro hc
        simp [Except.bind, exceptIsOk] at hc
      · intro hc
        exact absurd (Nat.dvd_iff_mod_eq_zero.mp hc.2) h2
  · simp only [h1, ne_eq, not_false_eq_true, ite_true]
    constructor
    · intro hc
      simp [Except.bind, exceptIsOk] at hc
    · intro hc
      exact absurd (Nat.dvd_iff_mod_eq_zero.mp hc.1) h1

/-- C7 witness: the guard at `num_heads = 4`, on 1×1×1×1 tensors with the
dot-product kernel: key/value depths `(8, 10)` are rejected (10 is not
divisible by 4) and depths `(8, 16)` are accepted. -/
theorem multihead_attention_divisibility_guard_witness :
    0 < 4 ∧
    (exceptIsOk (multihead_attention_build 8 10 4
        (fun q2 k2 v2 => dot_product_attention q2 k2 v2 (fun _ _ => 0))
        (fun (_ : Fin 1) (_ : Fin 1) => (0 : ℝ))
        (fun (_ : Fin 1) (_ : Fin 1) => (0 : ℝ))
        (fun (_ : Fin 1) (_ : Fin 1) => (0 : ℝ))) = true ↔
      ((4 : ℕ) ∣ 8 ∧ (4 : ℕ) ∣ 10)) ∧
    (exceptIsOk (multihead_attention_build 8 16 4
        (fun q2 k2 v2 => dot_product_attention q2 k2 v2 (fun _ _ => 0))
        (fun (_ : Fin 1) (_ : Fin 1) => (0 : ℝ))
        (fun (_ : Fin 1) (_ : Fin 1) => (0 : ℝ))
        (fun (_ : Fin 1) (_ : Fin 1) => (0 : ℝ))) = true ↔
      ((4 : ℕ) ∣ 8 ∧ (4 : ℕ) ∣ 16)) :=
  ⟨by decide,
    multihead_attention_divisibility_guard 8 10 4 (by decide) _ _ _ _,
    multihead_attention_divisibility_guard 8 16 4 (by decide) _ _ _ _⟩

/-- Helper for C8: scanning a list with the argmax step never decreases
the tracked value, and the result dominates every scanned element. -/
theorem foldl_argmax_ge {G : ℕ} (f : Fin G → ℝ) :
    ∀ (l : List (Fin G)) (init : Fin G),
      f init ≤
        f (l.foldl (fun best g => if f best < f g then g else best) init) ∧
      ∀ g ∈ l, f g ≤
        f (l.foldl (fun best g => if f best < f g then g else best) init) := by
  intro l
  induction l with
  | nil => intro init; simp
  | cons a rest ih =>
    intro init
    simp only [List.foldl_cons, List.mem_cons]
    by_cases h : f init < f a
    · rw [if_pos h]
      refine ⟨le_trans (le_of_lt h) (ih a).1, ?_⟩
      intro g hg
      rcases hg with rfl | hg
      · exact (ih g).1
      · exact (ih a).2 g hg
    · rw [if_neg h]
      refine ⟨(ih init).1, ?_⟩
      intro g hg
      rcases hg with rfl | hg
      · exact le_trans (not_lt.mp h) (ih init).1
      · exact (ih init).2 g hg

/-- C8: in `grouped_attention_multihead`, every query is routed to exactly
one group — its gates are one-hot (zero/one entries summing to 1), with the
hot group attaining the maximum of the predicted distribution; every memory
position whose predicted logit exceeds `log(threshold)` is in that group;
a memory position other than 0 below the threshold is in no further group;
and memory position 0 is a member of every group, so each group has at
least one memory position. -/
theorem grouped_attention_gate_invariants {Lq Lkv G : ℕ} (hG : 0 < G)
    (hL : 0 < Lkv) (qPred : Fin Lq → Fin G → ℝ)
    (mPred : Fin Lkv → Fin G → ℝ) (threshold : ℝ) :
    (∀ l, ∑ g, q_gates qPred hG l g = 1) ∧
    (∀ l g, q_gates qPred hG l g = 0 ∨ q_gates qPred hG l g = 1) ∧
    (∀ l g, qPred l g ≤ qPred l (tf_argmax (qPred l) hG)) ∧
    (∀ l, ∃ g0, q_gates qPred hG l g0 = 1 ∧
      ∀ g, g ≠ g0 → q_gates qPred hG l g = 0) ∧
    (∀ p g, Real.log threshold < mPred p g →
      m_gates mPred threshold p g = 1) ∧
    (∀ (p : Fin Lkv) (g : Fin G), (p : ℕ) ≠ 0 →
      ¬ Real.log threshold < mPred p g → m_gates mPred threshold p g = 0) ∧
    (∀ g, m_gates mPred threshold ⟨0, hL⟩ g = 1) := by
  refine ⟨?_, ?_, ?_, ?_, ?_, ?_, ?_⟩
  · intro l
    simp [q_gates]
  · intro l g
    unfold q_gates
    by_cases h : g = tf_argmax (qPred l) hG
    · right; rw [if_pos h]
    · left; rw [if_neg h]
  · intro l g
    exact (foldl_argmax_ge (qPred l) (List.finRange G) ⟨0, hG⟩).2 g
      (List.mem_finRange g)
  · intro l
    refine ⟨tf_argmax (qPred l) hG, ?_, ?_⟩
    · simp [q_gates]
    · intro g hg
      simp [q_gates, hg]
  · intro p g h
    unfold m_gates
    rw [if_pos h]
    rcases em ((p : ℕ) = 0) with h0 | h0 <;> simp [h0]
  · intro p g h0 h
    unfold m_gates
    rw [if_neg h, if_neg h0]
    simp
  · intro g
    unfold m_gates
    simp only [if_pos rfl]
    have : (if Real.log threshold < mPred ⟨0, hL⟩ g then (1 : ℝ) else 0)
        ≤ 1 := by
      rcases em (Real.log threshold < mPred ⟨0, hL⟩ g) with h | h <;>
        simp [h]
    exact max_eq_right this

/-- C8 witness: the gate invariants at two groups, one query, two memory
positions, constant-zero predictions, threshold 1. -/
theorem grouped_attention_gate_invariants_witness :
    0 < 2 ∧ 0 < 2 ∧
    ((∀ l : Fin 1, ∑ g : Fin 2,
      q_gates (fun _ _ => (0 : ℝ)) (by norm_num) l g = 1) ∧
    (∀ (l : Fin 1) (g : Fin 2),
      q_gates (fun _ _ => (0 : ℝ)) (by norm_num) l g = 0 ∨
      q_gates (fun _ _ => (0 : ℝ)) (by norm_num) l g = 1) ∧
    (∀ (l : Fin 1) (g : Fin 2), (fun (_ : Fin 1) (_ : Fin 2) => (0 : ℝ)) l g ≤
      (fun (_ : Fin 1) (_ : Fin 2) => (0 : ℝ)) l
        (tf_argmax ((fun (_ : Fin 1) (_ : Fin 2) => (0 : ℝ)) l)
          (by norm_num))) ∧
    (∀ l : Fin 1, ∃ g0 : Fin 2,
      q_gates (fun _ _ => (0 : ℝ)) (by norm_num) l g0 = 1 ∧
      ∀ g, g ≠ g0 →
        q_gates (fun _ _ => (0 : ℝ)) (by norm_num) l g = 0) ∧
    (∀ (p : Fin 2) (g : Fin 2), Real.log 1 < (0 : ℝ) →
      m_gates (fun _ _ => (0 : ℝ)) 1 p g = 1) ∧
    (∀ (p : Fin 2) (g : Fin 2), (p : ℕ) ≠ 0 → ¬ Real.log 1 < (0 : ℝ) →
      m_gates (fun _ _ => (0 : ℝ)) 1 p g = 0) ∧
    (∀ g : Fin 2, m_gates (fun (_ : Fin 2) (_ : Fin 2) => (0 : ℝ)) 1
      ⟨0, by norm_num⟩ g = 1)) :=
  ⟨by norm_num, by norm_num,
    grouped_attention_gate_invariants (by norm_num) (by norm_num)
      (fun _ _ => 0) (fun _ _ => 0) 1⟩

/-- C9: in every valid execution schedule of the op graph built by
`SimulatedBatchEnv.simulate` — every ordering of the created ops that
respects the data edges and the `tf.control_dependencies` edges — the
model reads the history buffer before producing its output, and both state
writes (the observation-variable assign and the history-buffer assign)
come strictly after the model output is computed; the model therefore
never reads a history buffer already updated within the same step. -/
theorem simulate_read_before_write (s : List SimOp)
    (h : validSchedule s) :
    s.indexOf SimOp.historyRead < s.indexOf SimOp.modelOutput ∧
    s.indexOf SimOp.modelOutput < s.indexOf SimOp.observAssign ∧
    s.indexOf SimOp.modelOutput < s.indexOf SimOp.bufferAssign := by
  have h1 := h.2 SimOp.modelOutput (by decide) SimOp.historyRead (by decide)
  have h2 := h.2 SimOp.observCompute (by decide) SimOp.modelOutput
    (by decide)
  have h3 := h.2 SimOp.observAssign (by decide) SimOp.observCompute
    (by decide)
  have h4 := h.2 SimOp.bufferAssign (by decide) SimOp.observCompute
    (by decide)
  exact ⟨h1, lt_trans h2 h3, lt_trans h2 h4⟩

/-- C9 witness: the program order in which `simulate` creates the ops is
itself a valid schedule, and it places the writes after the model
output. -/
theorem simulate_read_before_write_witness :
    validSchedule simOps ∧
    (simOps.indexOf SimOp.historyRead < simOps.indexOf SimOp.modelOutput ∧
    simOps.indexOf SimOp.modelOutput < simOps.indexOf SimOp.observAssign ∧
    simOps.indexOf SimOp.modelOutput < simOps.indexOf SimOp.bufferAssign) :=
  ⟨by decide, simulate_read_before_write simOps (by decide)⟩

/-- C10: `dot_product_attention` applies no `1/sqrt(depth_k)` scaling of
its own — it returns `softmax(q·kᵀ + bias)·v` on the logits as given —
and `multihead_attention` multiplies the head-split query by
`key_depth_per_head ** -0.5` exactly once before dispatching to the
kernel, so the composition computes
`softmax(scale * q·kᵀ + bias)·v` with a single scale factor on the
logits. -/
theorem multihead_scaling_applied_once {Lq Lk dk dv : ℕ} (tkd nh : ℕ)
    (q : Fin Lq → Fin dk → ℝ) (k : Fin Lk → Fin dk → ℝ)
    (v : Fin Lk → Fin dv → ℝ) (bias : Fin Lq → Fin Lk → ℝ) :
    (dot_product_attention q k v bias = fun i d => ∑ j,
      softmax (fun j2 => dotProd (q i) (k j2) + bias i j2) j * v j d) ∧
    (∀ kernel : (Fin Lq → Fin dk → ℝ) → (Fin Lk → Fin dk → ℝ) →
        (Fin Lk → Fin dv → ℝ) → Fin Lq → Fin dv → ℝ,
      multihead_attention_core tkd nh kernel q k v =
        kernel (fun i l => q i l * multihead_query_scale tkd nh) k v) ∧
    (multihead_attention_core tkd nh
        (fun q2 k2 v2 => dot_product_attention q2 k2 v2 bias) q k v =
      fun i d => ∑ j,
        softmax (fun j2 => multihead_query_scale tkd nh *
          dotProd (q i) (k j2) + bias i j2) j * v j d) := by
  refine ⟨rfl, fun kernel => rfl, ?_⟩
  unfold multihead_attention_core dot_product_attention
  funext i d
  beta_reduce
  have harg : (fun j2 => dotProd (fun l =>
      q i l * multihead_query_scale tkd nh) (k j2) + bias i j2) =
      (fun j2 => multihead_query_scale tkd nh * dotProd (q i) (k j2) +
        bias i j2) := by
    funext j2
    unfold dotProd
    rw [Finset.mul_sum]
    congr 1
    refine Finset.sum_congr rfl ?_
    intro l _
    ring
  rw [harg]

end T2T
